import Mathlib

/-!
# Verification of the collection-and-analysis pipeline

A shallow embedding of `code/collection_analysis.py` from the
`trending_gaming_reddit` repository, together with theorems settling the
frozen behavioural claims about it.

Embedding conventions:

* Python strings are Lean `String`s; the character-level work is done on
  `String.data : List Char`.  Python's regex classes `\w` and `\s` are
  modelled at the ASCII level by `isWordChar` and `isWs`.
* The two `re.sub` calls and the whitespace tokenizer are modelled by
  fuel-indexed structural recursions (`subUrlsF`, `subMentionsF`,
  `tokenizeF`); the fuel is the length of the list, which is always
  sufficient because every step consumes at least one character.
* `nltk.word_tokenize` is modelled as whitespace tokenization, which is its
  behaviour on the punctuation-free text this program feeds it; the NLTK
  stop-word corpora and the VADER scorer are external data and are passed
  as explicit parameters (`stop_pt`, `stop_en`, `scorer`).
* Sentiment scores (Python floats in [-1, 1]) are modelled as rationals.
* The filesystem is an association list from paths to file contents;
  Reddit, the credentials file and the disk are an explicit environment
  (`Env`), and `run_analysis_for_theme` is a function from an environment
  and a filesystem to a final filesystem, an optional escaped exception, an
  event trace, and the list of intermediate filesystem states observable
  during persistence.
-/

namespace TrendingGaming

/-- Models Python's regex class `\w` (word character) at the ASCII level:
letters, digits and the underscore. -/
def isWordChar (c : Char) : Bool := c.isAlphanum || c == '_'

/-- Models Python's whitespace class `\s` (the complement of `\S`). -/
def isWs (c : Char) : Bool := c.isWhitespace

/-- Length of the maximal run of non-whitespace characters at the front of
`l` — what the greedy `\S+` of the URL regex consumes. -/
def nonSpaceRun (l : List Char) : Nat := (l.takeWhile (fun c => !isWs c)).length

/-- Length of the leftmost-position match of `http\S+|www\S+|https\S+` when
the match starts at the head of `l` (the `https\S+` alternative is subsumed
by `http\S+`, which the regex engine tries first). -/
def urlMatchLen (l : List Char) : Option Nat :=
  if l.take 4 = ['h', 't', 't', 'p'] ∧ nonSpaceRun (l.drop 4) ≠ 0 then
    some (4 + nonSpaceRun (l.drop 4))
  else if l.take 3 = ['w', 'w', 'w'] ∧ nonSpaceRun (l.drop 3) ≠ 0 then
    some (3 + nonSpaceRun (l.drop 3))
  else none

/-- Fuel-indexed model of `re.sub(r'http\S+|www\S+|https\S+', '', text)`:
scan left to right, delete each leftmost match, resume after the deleted
span.  With fuel `≥` the length of the list this is the exact scan. -/
def subUrlsF : Nat → List Char → List Char
  | _, [] => []
  | 0, l => l
  | fuel + 1, c :: cs =>
    match urlMatchLen (c :: cs) with
    | some k => subUrlsF fuel ((c :: cs).drop k)
    | none => c :: subUrlsF fuel cs

/-- `re.sub(r'http\S+|www\S+|https\S+', '', text)` from `preprocess_text`. -/
def subUrls (l : List Char) : List Char := subUrlsF l.length l

/-- Length of the maximal run of word characters at the front of `l` —
what the `\w+` of the mention regex consumes. -/
def wordRun (l : List Char) : Nat := (l.takeWhile isWordChar).length

/-- Fuel-indexed model of `re.sub(r'@\w+', '', text)`. -/
def subMentionsF : Nat → List Char → List Char
  | _, [] => []
  | 0, l => l
  | fuel + 1, c :: cs =>
    if c = '@' ∧ wordRun cs ≠ 0 then subMentionsF fuel (cs.drop (wordRun cs))
    else c :: subMentionsF fuel cs

/-- `re.sub(r'@\w+', '', text)` from `preprocess_text`. -/
def subMentions (l : List Char) : List Char := subMentionsF l.length l

/-- `re.sub(r'[^\w\s]', '', text)`: drop every character that is neither a
word character nor whitespace. -/
def stripPunct (l : List Char) : List Char := l.filter (fun c => isWordChar c || isWs c)

/-- Fuel-indexed whitespace tokenizer: maximal runs of non-whitespace
characters, in order.  Models `nltk.word_tokenize` on the punctuation-free
text produced by the preceding rewrites. -/
def tokenizeF : Nat → List Char → List (List Char)
  | _, [] => []
  | 0, _ => []
  | fuel + 1, c :: cs =>
    if isWs c then tokenizeF fuel cs
    else (c :: cs.takeWhile (fun d => !isWs d)) :: tokenizeF fuel (cs.dropWhile (fun d => !isWs d))

/-- The tokenization step of `preprocess_text`. -/
def tokenize (l : List Char) : List (List Char) := tokenizeF l.length l

/-- The stop-word/length filter of `preprocess_text`, in the source's order:
`word not in stop_words_pt and word not in stop_words_en and len(word) > 1`. -/
def keepToken (stop_pt stop_en : List String) (w : List Char) : Bool :=
  decide (String.mk w ∉ stop_pt) && decide (String.mk w ∉ stop_en) && decide (1 < w.length)

/-- The `filtered_tokens` list built inside `preprocess_text`. -/
def filtered_tokens (stop_pt stop_en : List String) (text : String) : List (List Char) :=
  (tokenize (stripPunct (subMentions (subUrls (text.data.map Char.toLower))))).filter
    (keepToken stop_pt stop_en)

/-- Python's `' '.join(tokens)`. -/
def joinToks : List (List Char) → List Char
  | [] => []
  | [w] => w
  | w :: ws => w ++ ' ' :: joinToks ws

/-- `preprocess_text(text)` (lines 41–55 of `collection_analysis.py`):
lowercase, strip URLs, strip mentions, strip punctuation, tokenize, drop
stop words and one-character tokens, rejoin with single spaces.  The two
NLTK stop-word lists are external data, passed as parameters. -/
def preprocess_text (stop_pt stop_en : List String) (text : String) : String :=
  String.mk (joinToks (filtered_tokens stop_pt stop_en text))

/-- `classify_sentiment(score)` (lines 57–64 of `collection_analysis.py`). -/
def classify_sentiment (score : ℚ) : String :=
  if score ≥ 5 / 100 then "Positivo"
  else if score ≤ -(5 / 100) then "Negativo"
  else "Neutro"

/-- `search_term.replace(' ', '_').replace('(', '').replace(')', '')`
(line 75 of `collection_analysis.py`). -/
def safe_term_of (search_term : String) : String :=
  String.mk (((search_term.data.map fun c => if c = ' ' then '_' else c).filter
    (fun c => c != '(')).filter (fun c => c != ')'))

/-- The data directory (`DATA_DIR` in the source; its absolute location is
derived from the script's path and is irrelevant to the claims). -/
def DATA_DIR : String := "Data"

/-- `f'reddit_{safe_term}_analisado.csv'` (line 76). -/
def data_file_name (search_term : String) : String :=
  "reddit_" ++ safe_term_of search_term ++ "_analisado.csv"

/-- `os.path.join(DATA_DIR, data_file_name)` (line 77). -/
def full_file_path (search_term : String) : String :=
  DATA_DIR ++ "/" ++ data_file_name search_term

/-- Does `l` contain `pat` as a contiguous subsequence? -/
def containsSeq (pat : List Char) : List Char → Bool
  | [] => pat.isEmpty
  | c :: cs => pat.isPrefixOf (c :: cs) || containsSeq pat cs

/-! ## The collection / materialization model -/

/-- A `datetime.datetime` value, at the granularity the program uses: a
calendar day plus a time-of-day in seconds.  `pandas .dt.normalize()`
truncates the time-of-day to zero. -/
structure PyDateTime where
  year : Nat
  month : Nat
  day : Nat
  secOfDay : Nat
deriving DecidableEq

/-- `pd.to_datetime(col).dt.normalize()`: truncate the time-of-day. -/
def normalizeDate (d : PyDateTime) : PyDateTime := { d with secOfDay := 0 }

/-- Zero-pad a number to two digits, as in timestamp rendering. -/
def two (n : Nat) : String := if n < 10 then "0" ++ toString n else toString n

/-- The `YYYY-MM-DD` part of a timestamp's rendering. -/
def dayPart (d : PyDateTime) : String :=
  toString d.year ++ "-" ++ two d.month ++ "-" ++ two d.day

/-- How `pandas.to_csv` renders a datetime value: timestamps whose
time-of-day is exactly midnight print as the bare calendar date, all others
keep the `HH:MM:SS` part. -/
def dateStr (d : PyDateTime) : String :=
  if d.secOfDay = 0 then dayPart d
  else
    dayPart d ++ " " ++ two (d.secOfDay / 3600) ++ ":" ++ two (d.secOfDay % 3600 / 60)
      ++ ":" ++ two (d.secOfDay % 60)

/-- A comment as PRAW delivers it: `author` records whether the comment has
an author (`comment.author` is `None` for deleted accounts), `body` is the
raw text (`''` is falsy in the collection filter). -/
structure RedditComment where
  id : String
  author : Bool
  body : String
  score : Int
  created_utc : PyDateTime
deriving DecidableEq

/-- A submission returned by `reddit.subreddit(...).search(...)`, with its
comment forest already flattened by `replace_more(limit=0)` + `.list()`. -/
structure Submission where
  id : String
  title : String
  score : Int
  url : String
  created_utc : PyDateTime
  stickied : Bool
  comments : List RedditComment
deriving DecidableEq

/-- One element of `comments_data` (after the later column renames:
`comment_text ↦ text`, `created_utc ↦ date`). -/
structure CommentRecord where
  post_id : String
  comment_id : String
  text : String
  comment_score : Int
  date : PyDateTime
deriving DecidableEq

/-- The collection loop (lines 114–138): skip stickied submissions, and for
each remaining one keep the comments with an author and a non-empty body. -/
def collect_comments (subs : List Submission) : List CommentRecord :=
  (subs.filter fun s => !s.stickied).flatMap fun s =>
    (s.comments.filter fun c => c.author && c.body != "").map fun c =>
      ⟨s.id, c.id, c.body, c.score, c.created_utc⟩

/-- One row of `df_final` (the seven selected columns, in order). -/
structure AnalyzedRow where
  post_id : String
  date : PyDateTime
  text : String
  cleaned_text : String
  sentiment_score : ℚ
  sentiment : String
  comment_score : Int
deriving DecidableEq

/-- The per-comment analysis (lines 153–162): clean the text, score it,
classify the score, and normalize the date to day granularity. -/
def analyze_comment (stop_pt stop_en : List String) (scorer : String → ℚ)
    (c : CommentRecord) : AnalyzedRow :=
  let cleaned := preprocess_text stop_pt stop_en c.text
  let sc := scorer cleaned
  ⟨c.post_id, normalizeDate c.date, c.text, cleaned, sc, classify_sentiment sc, c.comment_score⟩

/-- Rendering of a rational score in the CSV (the exact numeral format is
not part of any claim). -/
def ratStr (q : ℚ) : String :=
  if q.den = 1 then toString q.num else toString q.num ++ "/" ++ toString q.den

/-- `pandas.to_csv` field quoting (QUOTE_MINIMAL): a field containing the
separator, a quote or a line break is wrapped in double quotes, with inner
quotes doubled. -/
def csvField (s : String) : String :=
  if s.data.any (fun c => c == ';' || c == '"' || c == '\n' || c == '\r') then
    "\"" ++ String.mk (s.data.flatMap fun c => if c = '"' then ['"', '"'] else [c]) ++ "\""
  else s

/-- The header row written by `to_csv`: the seven selected columns in
order, separated by `;`. -/
def headerRow : String := "post_id;date;text;cleaned_text;sentiment_score;sentiment;comment_score"

/-- One data row of the artifact: the seven fields of `df_final`, in
order, separated by `;`. -/
def renderRow (r : AnalyzedRow) : String :=
  String.intercalate ";"
    [csvField r.post_id, csvField (dateStr r.date), csvField r.text, csvField r.cleaned_text,
      ratStr r.sentiment_score, r.sentiment, toString r.comment_score]

/-- `df_final.to_csv(..., index=False, sep=';')`: header row then one line
per `AnalyzedRow`. -/
def csvContent (rows : List AnalyzedRow) : String :=
  headerRow ++ "\n" ++ String.join (rows.map fun r => renderRow r ++ "\n")

/-- The filesystem: an association list from paths to file contents. -/
abbrev FS := List (String × String)

/-- Create or truncate-and-overwrite the file at `p`. -/
def setFile (fs : FS) (p v : String) : FS :=
  (p, v) :: fs.filter fun kv => kv.1 != p

/-- The result of `reddit.subreddit(SUBREDDITS).search(search_term, limit=100)`
together with the comment fetching: either the submissions, or an exception
raised by the service during enumeration. -/
inductive FetchResult where
  | ok (subs : List Submission)
  | err (msg : String)

/-- Is the fetch successful? -/
def FetchResult.isOk : FetchResult → Bool
  | .ok _ => true
  | .err _ => false

/-- Everything external to the script: the credentials file (`none` when
`open` raises), whether `praw.Reddit(...)` construction succeeds, the
search results per topic, the NLTK stop-word corpora, the VADER compound
scorer, and whether the disk accepts the `to_csv` write. -/
structure Env where
  credentials : Option (List String)
  authOk : Bool
  fetch : String → FetchResult
  stop_pt : List String
  stop_en : List String
  scorer : String → ℚ
  persistOk : Bool

/-- The rows of `df_final` for one run: every collected comment, analyzed.
(`df.dropna(subset=['text'])` drops nothing: every collected comment has a
string body by construction.) -/
def analysis_rows (env : Env) (subs : List Submission) : List AnalyzedRow :=
  (collect_comments subs).map (analyze_comment env.stop_pt env.stop_en env.scorer)

/-- The externally visible actions of one `run_analysis_for_theme` call. -/
inductive Event where
  | readCreds
  | netSearch (term : String)
  | fileWrite (path : String)
deriving DecidableEq

/-- The outcome of one `run_analysis_for_theme` call: the final filesystem,
the exception that escaped the call (if any), the event trace, and the
filesystem as observable after each primitive write of the persistence
step. -/
structure RunOut where
  fs : FS
  exn : Option String
  events : List Event
  states : List FS
deriving DecidableEq

/-- `run_analysis_for_theme(search_term)` (lines 70–168).

* Lines 81–83: if the artifact file exists, return at once — before the
  credentials file is opened and before any network call.
* Lines 90–104: the credentials read, the `creds[:4]` unpacking and the
  `praw.Reddit` construction sit in a `try`; any failure there is caught
  and the function returns.
* Lines 114–138: the collection loop is *not* inside a `try`; a service
  error raised while enumerating escapes the call.
* Lines 140–142: zero collected comments end the call with a warning.
* Lines 153–165: analysis, then `to_csv` writes directly to the final
  path: the file is first created/truncated (observable empty) and then
  filled; a disk failure mid-write escapes the call and leaves the
  truncated file in place. -/
def run_analysis_for_theme (env : Env) (fs : FS) (search_term : String) : RunOut :=
  if (fs.lookup (full_file_path search_term)).isSome then
    ⟨fs, none, [], []⟩
  else
    match env.credentials with
    | none => ⟨fs, none, [.readCreds], []⟩
    | some creds =>
      if creds.length < 4 ∨ env.authOk = false then ⟨fs, none, [.readCreds], []⟩
      else
        match env.fetch search_term with
        | .err e => ⟨fs, some e, [.readCreds, .netSearch search_term], []⟩
        | .ok subs =>
          if (collect_comments subs).isEmpty then
            ⟨fs, none, [.readCreds, .netSearch search_term], []⟩
          else
            let content := csvContent (analysis_rows env subs)
            let fs1 := setFile fs (full_file_path search_term) ""
            if env.persistOk then
              ⟨setFile fs1 (full_file_path search_term) content, none,
                [.readCreds, .netSearch search_term, .fileWrite (full_file_path search_term)],
                [fs1, setFile fs1 (full_file_path search_term) content]⟩
            else
              ⟨fs1, some "PersistenceError",
                [.readCreds, .netSearch search_term, .fileWrite (full_file_path search_term)],
                [fs1]⟩

/-- The `__main__` loop (lines 186–187): run the topics in order; an
exception escaping `run_analysis_for_theme` aborts the whole loop. -/
def main_loop (env : Env) : FS → List String → FS × Option String
  | fs, [] => (fs, none)
  | fs, t :: ts =>
    let out := run_analysis_for_theme env fs t
    match out.exn with
    | some e => (out.fs, some e)
    | none => main_loop env out.fs ts

/-- The configured topics (lines 179–183). -/
def temas_para_analisar : List String :=
  ["Xbox Game Pass", "PlayStation Plus (PSN)", "Nintendo Switch Online"]

/-! ## Concrete fixtures used to instantiate the theorems -/

/-- A submission with one authored, non-empty comment. -/
def sub0 : Submission :=
  { id := "p1", title := "post", score := 3, url := "u", created_utc := ⟨2024, 1, 3, 100⟩,
    stickied := false,
    comments := [{ id := "c1", author := true, body := "hi", score := 2,
                   created_utc := ⟨2024, 1, 3, 56527⟩ }] }

/-- A submission with no comments at all. -/
def subEmpty : Submission :=
  { id := "p2", title := "post", score := 1, url := "u", created_utc := ⟨2024, 1, 4, 0⟩,
    stickied := false, comments := [] }

/-- A well-formed credentials file: four lines. -/
def goodCreds : List String := ["id", "secret", "user", "pass"]

/-- An environment in which everything succeeds. -/
def envGood : Env :=
  { credentials := some goodCreds, authOk := true, fetch := fun _ => .ok [sub0],
    stop_pt := [], stop_en := [], scorer := fun _ => 0, persistOk := true }

/-- Like `envGood`, but the disk fails during the `to_csv` write. -/
def envNoDisk : Env := { envGood with persistOk := false }

/-- Like `envGood`, but the service raises while enumerating topic `"t1"`. -/
def envSvc : Env :=
  { envGood with fetch := fun t => if t = "t1" then .err "ServiceError" else .ok [sub0] }

/-- Like `envGood`, but the credentials file is missing. -/
def envNoCreds : Env := { envGood with credentials := none }

/-- Like `envGood`, but the search returns a submission with no comments. -/
def envEmpty : Env := { envGood with fetch := fun _ => .ok [subEmpty] }

/-! ## Helper lemmas: characters -/

theorem toNat_ofNat_of_le (n : Nat) (h1 : 97 ≤ n) (h2 : n ≤ 122) : (Char.ofNat n).toNat = n := by
  have hv : n.isValidChar := Or.inl (by omega)
  simp [Char.ofNat, hv, Char.ofNatAux, Char.toNat, UInt32.toNat]

theorem toLower_not_upper (c : Char) :
    ¬(65 ≤ (Char.toLower c).toNat ∧ (Char.toLower c).toNat ≤ 90) := by
  simp only [Char.toLower]
  by_cases h : c.toNat ≥ 65 ∧ c.toNat ≤ 90
  · rw [if_pos h]
    have := toNat_ofNat_of_le (c.toNat + 32) (by omega) (by omega)
    omega
  · rw [if_neg h]
    omega

theorem toLower_eq_self (c : Char) (h : ¬(65 ≤ c.toNat ∧ c.toNat ≤ 90)) :
    Char.toLower c = c := by
  simp only [Char.toLower]
  rw [if_neg]
  omega

theorem toLower_idem (c : Char) : Char.toLower (Char.toLower c) = Char.toLower c :=
  toLower_eq_self _ (toLower_not_upper c)

/-! ## Helper lemmas: the fuel-indexed scans -/

theorem subUrlsF_nil (f : Nat) : subUrlsF f [] = [] := by cases f <;> rfl

theorem subMentionsF_nil (f : Nat) : subMentionsF f [] = [] := by cases f <;> rfl

theorem tokenizeF_nil (f : Nat) : tokenizeF f [] = [] := by cases f <;> rfl

theorem tokenizeF_zero (l : List Char) : tokenizeF 0 l = [] := by cases l <;> rfl

theorem urlMatchLen_pos {l : List Char} {k : Nat} (h : urlMatchLen l = some k) : 1 ≤ k := by
  unfold urlMatchLen at h
  split_ifs at h <;> simp only [Option.some.injEq, reduceCtorEq] at h <;> omega

theorem subUrlsF_fuel : ∀ (f g : Nat) (l : List Char),
    l.length ≤ f → l.length ≤ g → subUrlsF f l = subUrlsF g l := by
  intro f
  induction f with
  | zero =>
    intro g l hf _
    have : l = [] := List.eq_nil_of_length_eq_zero (Nat.le_zero.1 hf)
    subst this
    rw [subUrlsF_nil, subUrlsF_nil]
  | succ f ih =>
    intro g l hf hg
    cases l with
    | nil => rw [subUrlsF_nil, subUrlsF_nil]
    | cons c cs =>
      rw [List.length_cons] at hf hg
      cases g with
      | zero => omega
      | succ g' =>
        simp only [subUrlsF]
        cases hm : urlMatchLen (c :: cs) with
        | some k =>
          have hk := urlMatchLen_pos hm
          exact ih g' _ (by simp [List.length_drop]; omega) (by simp [List.length_drop]; omega)
        | none =>
          exact congrArg (c :: ·) (ih g' cs (by omega) (by omega))

theorem subMentionsF_fuel : ∀ (f g : Nat) (l : List Char),
    l.length ≤ f → l.length ≤ g → subMentionsF f l = subMentionsF g l := by
  intro f
  induction f with
  | zero =>
    intro g l hf _
    have : l = [] := List.eq_nil_of_length_eq_zero (Nat.le_zero.1 hf)
    subst this
    rw [subMentionsF_nil, subMentionsF_nil]
  | succ f ih =>
    intro g l hf hg
    cases l with
    | nil => rw [subMentionsF_nil, subMentionsF_nil]
    | cons c cs =>
      rw [List.length_cons] at hf hg
      cases g with
      | zero => omega
      | succ g' =>
        simp only [subMentionsF]
        by_cases hm : c = '@' ∧ wordRun cs ≠ 0
        · rw [if_pos hm, if_pos hm]
          exact ih g' _ (by simp [List.length_drop]; omega) (by simp [List.length_drop]; omega)
        · rw [if_neg hm, if_neg hm]
          exact congrArg (c :: ·) (ih g' cs (by omega) (by omega))

theorem tokenizeF_fuel : ∀ (f g : Nat) (l : List Char),
    l.length ≤ f → l.length ≤ g → tokenizeF f l = tokenizeF g l := by
  intro f
  induction f with
  | zero =>
    intro g l hf _
    have : l = [] := List.eq_nil_of_length_eq_zero (Nat.le_zero.1 hf)
    subst this
    rw [tokenizeF_nil, tokenizeF_nil]
  | succ f ih =>
    intro g l hf hg
    cases l with
    | nil => rw [tokenizeF_nil, tokenizeF_nil]
    | cons c cs =>
      rw [List.length_cons] at hf hg
      cases g with
      | zero => omega
      | succ g' =>
        simp only [tokenizeF]
        by_cases hc : isWs c = true
        · rw [if_pos hc, if_pos hc]
          exact ih g' cs (by omega) (by omega)
        · rw [if_neg hc, if_neg hc]
          have hd : ((cs.dropWhile fun d => !isWs d).length) ≤ cs.length :=
            (List.dropWhile_sublist _).length_le
          exact congrArg _ (ih g' _ (by omega) (by omega))

/-! ## Helper lemmas: one-step equations for the wrapped scans -/

theorem subUrls_cons_some {c : Char} {cs : List Char} {k : Nat}
    (h : urlMatchLen (c :: cs) = some k) : subUrls (c :: cs) = subUrls ((c :: cs).drop k) := by
  have hk := urlMatchLen_pos h
  show subUrlsF (c :: cs).length (c :: cs) = _
  rw [List.length_cons]
  simp only [subUrlsF, h]
  exact subUrlsF_fuel _ _ _ (by simp [List.length_drop]; omega) le_rfl

theorem subUrls_cons_none {c : Char} {cs : List Char}
    (h : urlMatchLen (c :: cs) = none) : subUrls (c :: cs) = c :: subUrls cs := by
  show subUrlsF (c :: cs).length (c :: cs) = _
  rw [List.length_cons]
  simp only [subUrlsF, h]
  rfl

theorem subMentions_cons_match {c : Char} {cs : List Char}
    (h : c = '@' ∧ wordRun cs ≠ 0) :
    subMentions (c :: cs) = subMentions (cs.drop (wordRun cs)) := by
  show subMentionsF (c :: cs).length (c :: cs) = _
  rw [List.length_cons]
  simp only [subMentionsF, if_pos h]
  exact subMentionsF_fuel _ _ _ (by simp [List.length_drop]) le_rfl

theorem subMentions_cons_skip {c : Char} {cs : List Char}
    (h : ¬(c = '@' ∧ wordRun cs ≠ 0)) : subMentions (c :: cs) = c :: subMentions cs := by
  show subMentionsF (c :: cs).length (c :: cs) = _
  rw [List.length_cons]
  simp only [subMentionsF, if_neg h]
  rfl

theorem tokenize_cons_ws {c : Char} {cs : List Char}
    (h : isWs c = true) : tokenize (c :: cs) = tokenize cs := by
  show tokenizeF (c :: cs).length (c :: cs) = _
  rw [List.length_cons]
  simp only [tokenizeF, if_pos h]
  rfl

theorem tokenize_cons_word {c : Char} {cs : List Char}
    (h : ¬isWs c = true) :
    tokenize (c :: cs) =
      (c :: cs.takeWhile fun d => !isWs d) :: tokenize (cs.dropWhile fun d => !isWs d) := by
  show tokenizeF (c :: cs).length (c :: cs) = _
  rw [List.length_cons]
  simp only [tokenizeF, if_neg h]
  exact congrArg _ (tokenizeF_fuel _ _ _ (List.dropWhile_sublist _).length_le le_rfl)

/-! ## Helper lemmas: soundness of the scans -/

theorem mem_of_mem_subUrlsF : ∀ (f : Nat) (l : List Char) (c : Char),
    c ∈ subUrlsF f l → c ∈ l := by
  intro f
  induction f with
  | zero =>
    intro l c h
    cases l with
    | nil => simp [subUrlsF_nil] at h
    | cons a as => exact h
  | succ f ih =>
    intro l c h
    cases l with
    | nil => simp [subUrlsF_nil] at h
    | cons a as =>
      simp only [subUrlsF] at h
      cases hm : urlMatchLen (a :: as) with
      | some k =>
        rw [hm] at h
        exact (List.drop_sublist k (a :: as)).mem (ih _ _ h)
      | none =>
        rw [hm] at h
        rcases List.mem_cons.1 h with h | h
        · exact h ▸ List.mem_cons_self a as
        · exact List.mem_cons_of_mem a (ih _ _ h)

theorem mem_of_mem_subUrls {l : List Char} {c : Char} (h : c ∈ subUrls l) : c ∈ l :=
  mem_of_mem_subUrlsF _ _ _ h

theorem mem_of_mem_subMentionsF : ∀ (f : Nat) (l : List Char) (c : Char),
    c ∈ subMentionsF f l → c ∈ l := by
  intro f
  induction f with
  | zero =>
    intro l c h
    cases l with
    | nil => simp [subMentionsF_nil] at h
    | cons a as => exact h
  | succ f ih =>
    intro l c h
    cases l with
    | nil => simp [subMentionsF_nil] at h
    | cons a as =>
      simp only [subMentionsF] at h
      by_cases hm : a = '@' ∧ wordRun as ≠ 0
      · rw [if_pos hm] at h
        exact List.mem_cons_of_mem a ((List.drop_sublist _ as).mem (ih _ _ h))
      · rw [if_neg hm] at h
        rcases List.mem_cons.1 h with h | h
        · exact h ▸ List.mem_cons_self a as
        · exact List.mem_cons_of_mem a (ih _ _ h)

theorem mem_of_mem_subMentions {l : List Char} {c : Char} (h : c ∈ subMentions l) : c ∈ l :=
  mem_of_mem_subMentionsF _ _ _ h

theorem tokenizeF_sound : ∀ (f : Nat) (l : List Char) (w : List Char), w ∈ tokenizeF f l →
    w ≠ [] ∧ ∀ c ∈ w, isWs c = false ∧ c ∈ l := by
  intro f
  induction f with
  | zero =>
    intro l w h
    rw [tokenizeF_zero] at h
    simp at h
  | succ f ih =>
    intro l w h
    cases l with
    | nil => simp [tokenizeF_nil] at h
    | cons a as =>
      simp only [tokenizeF] at h
      by_cases ha : isWs a = true
      · rw [if_pos ha] at h
        obtain ⟨h1, h2⟩ := ih as w h
        exact ⟨h1, fun c hc => ⟨(h2 c hc).1, List.mem_cons_of_mem a (h2 c hc).2⟩⟩
      · rw [if_neg ha] at h
        rcases List.mem_cons.1 h with h | h
        · subst h
          refine ⟨by simp, fun c hc => ?_⟩
          rcases List.mem_cons.1 hc with hc | hc
          · rw [hc]
            exact ⟨Bool.eq_false_iff.mpr ha, List.mem_cons_self a as⟩
          · have hp := List.mem_takeWhile_imp hc
            have hm := (List.takeWhile_sublist _).mem hc
            exact ⟨by simpa using hp, List.mem_cons_of_mem a hm⟩
        · obtain ⟨h1, h2⟩ := ih _ w h
          refine ⟨h1, fun c hc => ?_⟩
          obtain ⟨hw, hm⟩ := h2 c hc
          exact ⟨hw, List.mem_cons_of_mem a ((List.dropWhile_sublist _).mem hm)⟩

theorem tokenize_sound {l w : List Char} (h : w ∈ tokenize l) :
    w ≠ [] ∧ ∀ c ∈ w, isWs c = false ∧ c ∈ l :=
  tokenizeF_sound _ _ _ h

theorem mem_joinToks : ∀ (toks : List (List Char)) (c : Char), c ∈ joinToks toks →
    c = ' ' ∨ ∃ w ∈ toks, c ∈ w := by
  intro toks
  induction toks with
  | nil => intro c h; simp [joinToks] at h
  | cons w ws ih =>
    intro c h
    cases ws with
    | nil =>
      exact Or.inr ⟨w, List.mem_cons_self _ _, h⟩
    | cons w' ws' =>
      simp only [joinToks] at h
      rcases List.mem_append.1 h with h | h
      · exact Or.inr ⟨w, List.mem_cons_self _ _, h⟩
      · rcases List.mem_cons.1 h with h | h
        · exact Or.inl h
        · rcases ih c h with h | ⟨u, hu, hc⟩
          · exact Or.inl h
          · exact Or.inr ⟨u, List.mem_cons_of_mem _ hu, hc⟩

/-! ## Helper lemmas: identity of the rewrites on already-clean text -/

theorem containsSeq_cons_false {pat : List Char} {c : Char} {cs : List Char}
    (h : containsSeq pat (c :: cs) = false) :
    pat.isPrefixOf (c :: cs) = false ∧ containsSeq pat cs = false := by
  have : (pat.isPrefixOf (c :: cs) || containsSeq pat cs) = false := h
  exact ⟨(Bool.or_eq_false_iff.1 this).1, (Bool.or_eq_false_iff.1 this).2⟩

theorem subUrls_eq_self : ∀ l : List Char,
    containsSeq ['h', 't', 't', 'p'] l = false → containsSeq ['w', 'w', 'w'] l = false →
    subUrls l = l := by
  intro l
  induction l with
  | nil => intro _ _; rfl
  | cons c cs ih =>
    intro hh hw
    obtain ⟨hh1, hh2⟩ := containsSeq_cons_false hh
    obtain ⟨hw1, hw2⟩ := containsSeq_cons_false hw
    have hm : urlMatchLen (c :: cs) = none := by
      unfold urlMatchLen
      rw [if_neg, if_neg]
      · rintro ⟨h3, -⟩
        have hp : (['w', 'w', 'w'] : List Char).isPrefixOf (c :: cs) = true :=
          List.isPrefixOf_iff_prefix.2 (List.prefix_iff_eq_take.2 h3.symm)
        rw [hp] at hw1
        exact absurd hw1 (by simp)
      · rintro ⟨h4, -⟩
        have hp : (['h', 't', 't', 'p'] : List Char).isPrefixOf (c :: cs) = true :=
          List.isPrefixOf_iff_prefix.2 (List.prefix_iff_eq_take.2 h4.symm)
        rw [hp] at hh1
        exact absurd hh1 (by simp)
    rw [subUrls_cons_none hm, ih hh2 hw2]

theorem subMentions_eq_self : ∀ l : List Char, '@' ∉ l → subMentions l = l := by
  intro l
  induction l with
  | nil => intro _; rfl
  | cons c cs ih =>
    intro h
    have hc : c ≠ '@' := fun hc => h (hc ▸ List.mem_cons_self c cs)
    rw [subMentions_cons_skip (fun hm => hc hm.1),
      ih fun hm => h (List.mem_cons_of_mem c hm)]

theorem map_toLower_eq_self : ∀ l : List Char, (∀ c ∈ l, Char.toLower c = c) →
    l.map Char.toLower = l := by
  intro l
  induction l with
  | nil => intro _; rfl
  | cons c cs ih =>
    intro h
    rw [List.map_cons, h c (List.mem_cons_self c cs),
      ih fun d hd => h d (List.mem_cons_of_mem c hd)]

theorem stripPunct_eq_self {l : List Char} (h : ∀ c ∈ l, (isWordChar c || isWs c) = true) :
    stripPunct l = l :=
  List.filter_eq_self.2 h

/-! ## Helper lemmas: tokenize / join round trip -/

theorem dropWhile_append_all {p : Char → Bool} : ∀ {a b : List Char},
    (∀ c ∈ a, p c = true) → (a ++ b).dropWhile p = b.dropWhile p := by
  intro a
  induction a with
  | nil => intro b _; rfl
  | cons c cs ih =>
    intro b h
    rw [List.cons_append, List.dropWhile_cons_of_pos (h c (List.mem_cons_self c cs))]
    exact ih fun d hd => h d (List.mem_cons_of_mem c hd)

theorem tokenize_single {w : List Char} (h0 : w ≠ [])
    (h : ∀ c ∈ w, isWs c = false) : tokenize w = [w] := by
  cases w with
  | nil => exact absurd rfl h0
  | cons c cs =>
    have hc : ¬isWs c = true := by simp [h c (List.mem_cons_self c cs)]
    rw [tokenize_cons_word hc]
    have hall : ∀ d ∈ cs, (!isWs d) = true := fun d hd => by
      simp [h d (List.mem_cons_of_mem c hd)]
    rw [List.takeWhile_eq_self_iff.2 hall, List.dropWhile_eq_nil_iff.2 hall]
    rfl

theorem tokenize_word_append {w r : List Char} (h0 : w ≠ [])
    (h : ∀ c ∈ w, isWs c = false) : tokenize (w ++ ' ' :: r) = w :: tokenize r := by
  cases w with
  | nil => exact absurd rfl h0
  | cons c cs =>
    have hc : ¬isWs c = true := by simp [h c (List.mem_cons_self c cs)]
    have hall : ∀ d ∈ cs, (!isWs d) = true := fun d hd => by
      simp [h d (List.mem_cons_of_mem c hd)]
    have hsp : (!isWs ' ') = false := by decide
    rw [List.cons_append, tokenize_cons_word hc]
    rw [List.takeWhile_append, List.takeWhile_eq_self_iff.2 hall, if_pos rfl]
    rw [List.takeWhile_cons_of_neg (by simp [hsp]), List.append_nil]
    rw [dropWhile_append_all hall, List.dropWhile_cons_of_neg (by simp [hsp])]
    rw [tokenize_cons_ws (by decide)]

theorem tokenize_joinToks : ∀ toks : List (List Char),
    (∀ w ∈ toks, w ≠ [] ∧ ∀ c ∈ w, isWs c = false) → tokenize (joinToks toks) = toks := by
  intro toks
  induction toks with
  | nil => intro _; rfl
  | cons w ws ih =>
    intro h
    obtain ⟨hw0, hwc⟩ := h w (List.mem_cons_self w ws)
    cases ws with
    | nil =>
      show tokenize w = [w]
      exact tokenize_single hw0 hwc
    | cons w' ws' =>
      show tokenize (w ++ ' ' :: joinToks (w' :: ws')) = _
      rw [tokenize_word_append hw0 hwc,
        ih fun u hu => h u (List.mem_cons_of_mem w hu)]

/-! ## Helper lemmas: the stop-word filter and the output characters -/

theorem keepToken_true_iff (stop_pt stop_en : List String) (w : List Char) :
    keepToken stop_pt stop_en w = true ↔
      String.mk w ∉ stop_pt ∧ String.mk w ∉ stop_en ∧ 1 < w.length := by
  simp [keepToken, and_assoc]

theorem filtered_tokens_wf (stop_pt stop_en : List String) (text : String) :
    ∀ w ∈ filtered_tokens stop_pt stop_en text, w ≠ [] ∧ ∀ c ∈ w, isWs c = false := by
  intro w hw
  have hmem := List.mem_of_mem_filter hw
  obtain ⟨h0, h1⟩ := tokenize_sound hmem
  exact ⟨h0, fun c hc => (h1 c hc).1⟩

theorem preprocess_char_fact (stop_pt stop_en : List String) (text : String) :
    ∀ c ∈ (preprocess_text stop_pt stop_en text).data,
      (isWordChar c || isWs c) = true ∧ Char.toLower c = c := by
  intro c hc
  rcases mem_joinToks _ c hc with hsp | ⟨w, hw, hcw⟩
  · subst hsp
    exact ⟨by decide, by decide⟩
  · have hmem := List.mem_of_mem_filter hw
    obtain ⟨-, h1⟩ := tokenize_sound hmem
    obtain ⟨hws, hc4⟩ := h1 c hcw
    have hpunct := List.of_mem_filter hc4
    have hc3 : c ∈ subMentions (subUrls (text.data.map Char.toLower)) :=
      List.mem_of_mem_filter hc4
    have hc1 : c ∈ text.data.map Char.toLower :=
      mem_of_mem_subUrls (mem_of_mem_subMentions hc3)
    obtain ⟨c', -, hc'⟩ := List.mem_map.1 hc1
    exact ⟨hpunct, by rw [← hc']; exact toLower_idem c'⟩

theorem preprocess_no_at (stop_pt stop_en : List String) (text : String) :
    '@' ∉ (preprocess_text stop_pt stop_en text).data := by
  intro hmem
  have h := (preprocess_char_fact stop_pt stop_en text '@' hmem).1
  simp [isWordChar, isWs] at h

/-! ## Helper lemmas: injectivity of the sanitizer on clean strings -/

theorem space_map_inj : ∀ (a b : List Char), (∀ c ∈ a, c ≠ '_') → (∀ c ∈ b, c ≠ '_') →
    (a.map fun c => if c = ' ' then '_' else c) = (b.map fun c => if c = ' ' then '_' else c) →
    a = b := by
  intro a
  induction a with
  | nil =>
    intro b _ _ h
    cases b with
    | nil => rfl
    | cons y ys => simp at h
  | cons x xs ih =>
    intro b ha hb h
    cases b with
    | nil => simp at h
    | cons y ys =>
      simp only [List.map_cons, List.cons.injEq] at h
      obtain ⟨h1, h2⟩ := h
      have hx : x ≠ '_' := ha x (List.mem_cons_self x xs)
      have hy : y ≠ '_' := hb y (List.mem_cons_self y ys)
      have hxy : x = y := by
        by_cases hxs : x = ' ' <;> by_cases hys : y = ' '
        · rw [hxs, hys]
        · rw [if_pos hxs, if_neg hys] at h1; exact absurd h1.symm hy
        · rw [if_neg hxs, if_pos hys] at h1; exact absurd h1 hx
        · rwa [if_neg hxs, if_neg hys] at h1
      rw [hxy, ih ys (fun c hc => ha c (List.mem_cons_of_mem x hc))
        (fun c hc => hb c (List.mem_cons_of_mem y hc)) h2]

/-! ## Helper lemmas: the branches of `run_analysis_for_theme` -/

theorem lookup_setFile_self (fs : FS) (p v : String) : (setFile fs p v).lookup p = some v := by
  simp [setFile, List.lookup]

theorem run_cached (env : Env) (fs : FS) (t : String)
    (h : (fs.lookup (full_file_path t)).isSome = true) :
    run_analysis_for_theme env fs t = ⟨fs, none, [], []⟩ := by
  unfold run_analysis_for_theme
  rw [if_pos h]

theorem run_auth_none (env : Env) (fs : FS) (t : String)
    (h0 : fs.lookup (full_file_path t) = none) (hc : env.credentials = none) :
    run_analysis_for_theme env fs t = ⟨fs, none, [Event.readCreds], []⟩ := by
  unfold run_analysis_for_theme
  rw [h0, hc]
  rfl

theorem run_auth_bad (env : Env) (fs : FS) (t : String) (creds : List String)
    (h0 : fs.lookup (full_file_path t) = none) (hc : env.credentials = some creds)
    (hbad : creds.length < 4 ∨ env.authOk = false) :
    run_analysis_for_theme env fs t = ⟨fs, none, [Event.readCreds], []⟩ := by
  unfold run_analysis_for_theme
  rw [h0, hc]
  exact if_pos hbad

theorem run_service_err (env : Env) (fs : FS) (t : String) (creds : List String) (e : String)
    (h0 : fs.lookup (full_file_path t) = none) (hc : env.credentials = some creds)
    (hgood : ¬(creds.length < 4 ∨ env.authOk = false)) (hf : env.fetch t = FetchResult.err e) :
    run_analysis_for_theme env fs t = ⟨fs, some e, [Event.readCreds, Event.netSearch t], []⟩ := by
  unfold run_analysis_for_theme
  rw [h0, hc, hf]
  exact if_neg hgood

theorem run_fetch_ok (env : Env) (fs : FS) (t : String) (creds : List String)
    (subs : List Submission)
    (h0 : fs.lookup (full_file_path t) = none) (hc : env.credentials = some creds)
    (hgood : ¬(creds.length < 4 ∨ env.authOk = false)) (hf : env.fetch t = FetchResult.ok subs) :
    run_analysis_for_theme env fs t =
      if (collect_comments subs).isEmpty then
        ⟨fs, none, [Event.readCreds, Event.netSearch t], []⟩
      else
        let content := csvContent (analysis_rows env subs)
        let fs1 := setFile fs (full_file_path t) ""
        if env.persistOk then
          ⟨setFile fs1 (full_file_path t) content, none,
            [Event.readCreds, Event.netSearch t, Event.fileWrite (full_file_path t)],
            [fs1, setFile fs1 (full_file_path t) content]⟩
        else
          ⟨fs1, some "PersistenceError",
            [Event.readCreds, Event.netSearch t, Event.fileWrite (full_file_path t)], [fs1]⟩ := by
  unfold run_analysis_for_theme
  rw [h0, hc, hf]
  exact if_neg hgood

theorem run_empty (env : Env) (fs : FS) (t : String) (creds : List String)
    (subs : List Submission)
    (h0 : fs.lookup (full_file_path t) = none) (hc : env.credentials = some creds)
    (hgood : ¬(creds.length < 4 ∨ env.authOk = false)) (hf : env.fetch t = FetchResult.ok subs)
    (hemp : (collect_comments subs).isEmpty = true) :
    run_analysis_for_theme env fs t = ⟨fs, none, [Event.readCreds, Event.netSearch t], []⟩ := by
  rw [run_fetch_ok env fs t creds subs h0 hc hgood hf]
  exact if_pos hemp

theorem run_materializes (env : Env) (fs : FS) (t : String) (creds : List String)
    (subs : List Submission)
    (h0 : fs.lookup (full_file_path t) = none) (hc : env.credentials = some creds)
    (hgood : ¬(creds.length < 4 ∨ env.authOk = false)) (hf : env.fetch t = FetchResult.ok subs)
    (hne : (collect_comments subs).isEmpty = false) (hper : env.persistOk = true) :
    run_analysis_for_theme env fs t =
      ⟨setFile (setFile fs (full_file_path t) "") (full_file_path t)
          (csvContent (analysis_rows env subs)), none,
        [Event.readCreds, Event.netSearch t, Event.fileWrite (full_file_path t)],
        [setFile fs (full_file_path t) "",
          setFile (setFile fs (full_file_path t) "") (full_file_path t)
            (csvContent (analysis_rows env subs))]⟩ := by
  rw [run_fetch_ok env fs t creds subs h0 hc hgood hf]
  rw [if_neg (by simp [hne])]
  exact if_pos hper

theorem run_persist_fail (env : Env) (fs : FS) (t : String) (creds : List String)
    (subs : List Submission)
    (h0 : fs.lookup (full_file_path t) = none) (hc : env.credentials = some creds)
    (hgood : ¬(creds.length < 4 ∨ env.authOk = false)) (hf : env.fetch t = FetchResult.ok subs)
    (hne : (collect_comments subs).isEmpty = false) (hper : env.persistOk = false) :
    run_analysis_for_theme env fs t =
      ⟨setFile fs (full_file_path t) "", some "PersistenceError",
        [Event.readCreds, Event.netSearch t, Event.fileWrite (full_file_path t)],
        [setFile fs (full_file_path t) ""]⟩ := by
  rw [run_fetch_ok env fs t creds subs h0 hc hgood hf]
  rw [if_neg (by simp [hne])]
  exact if_neg (by simp [hper])

theorem run_exn_none (env : Env) (fs : FS) (t : String) (hper : env.persistOk = true)
    (hok : (env.fetch t).isOk = true) : (run_analysis_for_theme env fs t).exn = none := by
  by_cases h0 : (fs.lookup (full_file_path t)).isSome = true
  · rw [run_cached env fs t h0]
  · have h0' : fs.lookup (full_file_path t) = none := by
      cases hl : fs.lookup (full_file_path t) with
      | none => rfl
      | some v => rw [hl] at h0; simp at h0
    cases hc : env.credentials with
    | none => rw [run_auth_none env fs t h0' hc]
    | some creds =>
      by_cases hgood : creds.length < 4 ∨ env.authOk = false
      · rw [run_auth_bad env fs t creds h0' hc hgood]
      · cases hf : env.fetch t with
        | err e => rw [hf] at hok; simp [FetchResult.isOk] at hok
        | ok subs =>
          cases hemp : (collect_comments subs).isEmpty with
          | true => rw [run_empty env fs t creds subs h0' hc hgood hf hemp]
          | false => rw [run_materializes env fs t creds subs h0' hc hgood hf hemp hper]

/-! ## The claims -/

/-- C4: `classify_sentiment` is a pure, closed three-way threshold
function: it returns `"Positivo"` exactly when the score is `≥ 0.05`,
`"Negativo"` exactly when it is `≤ -0.05`, and `"Neutro"` exactly on the
open interval `(-0.05, 0.05)`; in particular `classify(0.05)` is positive,
`classify(-0.05)` is negative, `classify(0.049)`, `classify(-0.049)` and
`classify(0.0)` are neutral, and no other class is ever returned. -/
theorem classify_sentiment_threshold (s : ℚ) :
    (classify_sentiment s = "Positivo" ↔ 5 / 100 ≤ s) ∧
    (classify_sentiment s = "Negativo" ↔ s ≤ -(5 / 100)) ∧
    (classify_sentiment s = "Neutro" ↔ -(5 / 100) < s ∧ s < 5 / 100) ∧
    classify_sentiment (5 / 100) = "Positivo" ∧
    classify_sentiment (-(5 / 100)) = "Negativo" ∧
    classify_sentiment (49 / 1000) = "Neutro" ∧
    classify_sentiment (-(49 / 1000)) = "Neutro" ∧
    classify_sentiment 0 = "Neutro" ∧
    (classify_sentiment s = "Positivo" ∨ classify_sentiment s = "Negativo" ∨
      classify_sentiment s = "Neutro") := by
  have hP : classify_sentiment s = "Positivo" ↔ 5 / 100 ≤ s := by
    unfold classify_sentiment
    split_ifs with h1 h2
    · exact ⟨fun _ => h1, fun _ => rfl⟩
    · exact ⟨fun habs => absurd habs (by decide), fun hs => absurd hs h1⟩
    · exact ⟨fun habs => absurd habs (by decide), fun hs => absurd hs h1⟩
  have hN : classify_sentiment s = "Negativo" ↔ s ≤ -(5 / 100) := by
    unfold classify_sentiment
    split_ifs with h1 h2
    · exact ⟨fun habs => absurd habs (by decide), fun hs => absurd (le_trans h1 hs) (by norm_num)⟩
    · exact ⟨fun _ => h2, fun _ => rfl⟩
    · exact ⟨fun habs => absurd habs (by decide), fun hs => absurd hs h2⟩
  have hZ : classify_sentiment s = "Neutro" ↔ -(5 / 100) < s ∧ s < 5 / 100 := by
    unfold classify_sentiment
    split_ifs with h1 h2
    · exact ⟨fun habs => absurd habs (by decide), fun h => absurd h1 (not_le.2 h.2)⟩
    · exact ⟨fun habs => absurd habs (by decide), fun h => absurd h2 (not_le.2 h.1)⟩
    · exact ⟨fun _ => ⟨not_le.1 h2, not_le.1 h1⟩, fun _ => rfl⟩
  refine ⟨hP, hN, hZ, ?_, ?_, ?_, ?_, ?_, ?_⟩
  · norm_num [classify_sentiment]
  · norm_num [classify_sentiment]
  · norm_num [classify_sentiment]
  · norm_num [classify_sentiment]
  · norm_num [classify_sentiment]
  · unfold classify_sentiment
    split_ifs <;> simp

/-- C7 counterexample: the topic-to-filename derivation is not injective —
the distinct topics `"a b"` and `"a_b"` are sanitized to the same term and
hence share the artifact path `Data/reddit_a_b_analisado.csv`. -/
theorem safe_term_collision_cex :
    safe_term_of "a b" = safe_term_of "a_b" ∧ ("a b" : String) ≠ "a_b" ∧
      full_file_path "a b" = full_file_path "a_b" := by decide

/-- C7 (amended): the sanitization collapses `' '` with `'_'` and erases
`'('` and `')'`, so distinct topics can share an artifact file (e.g.
`"a b"` and `"a_b"`); restricted to topic strings containing none of the
characters `'_'`, `'('`, `')'`, the derivation is injective. -/
theorem safe_term_inj_on_clean (s1 s2 : String)
    (h1 : ∀ c ∈ s1.data, c ≠ '_' ∧ c ≠ '(' ∧ c ≠ ')')
    (h2 : ∀ c ∈ s2.data, c ≠ '_' ∧ c ≠ '(' ∧ c ≠ ')')
    (heq : safe_term_of s1 = safe_term_of s2) : s1 = s2 := by
  have hmap : ∀ s : String, (∀ c ∈ s.data, c ≠ '_' ∧ c ≠ '(' ∧ c ≠ ')') →
      safe_term_of s = String.mk (s.data.map fun c => if c = ' ' then '_' else c) := by
    intro s hs
    have hnp : ∀ c ∈ (s.data.map fun c => if c = ' ' then '_' else c),
        (c != '(') = true ∧ (c != ')') = true := by
      intro c hc
      obtain ⟨c', hc', rfl⟩ := List.mem_map.1 hc
      obtain ⟨-, h2', h3'⟩ := hs c' hc'
      by_cases hsp : c' = ' '
      · rw [if_pos hsp]; exact ⟨by decide, by decide⟩
      · rw [if_neg hsp]; exact ⟨by simpa using h2', by simpa using h3'⟩
    unfold safe_term_of
    rw [List.filter_eq_self.2 fun c hc => (hnp c hc).1]
    rw [List.filter_eq_self.2 fun c hc => (hnp c hc).2]
  rw [hmap s1 h1, hmap s2 h2] at heq
  have hdata : (s1.data.map fun c => if c = ' ' then '_' else c) =
      (s2.data.map fun c => if c = ' ' then '_' else c) := congrArg String.data heq
  have := space_map_inj s1.data s2.data (fun c hc => (h1 c hc).1)
    (fun c hc => (h2 c hc).1) hdata
  cases s1; cases s2; exact congrArg String.mk this

/-- Witness for C7 (amended): the hypotheses are satisfiable — `"a b"`
contains none of the collapsed characters, and the theorem applies to it. -/
theorem safe_term_inj_on_clean_witness : ("a b" : String) = "a b" :=
  safe_term_inj_on_clean "a b" "a b" (by decide) (by decide) rfl

/-- C8: every token surviving the stop-word/length filter of
`preprocess_text` has length ≥ 2 and belongs to neither stop-word list, the
output is exactly these tokens rejoined with single spaces, and
re-tokenizing the output recovers exactly the surviving tokens. -/
theorem token_filter_spec (stop_pt stop_en : List String) (text : String) :
    (∀ w ∈ filtered_tokens stop_pt stop_en text,
      2 ≤ w.length ∧ String.mk w ∉ stop_pt ∧ String.mk w ∉ stop_en) ∧
    preprocess_text stop_pt stop_en text =
      String.mk (joinToks (filtered_tokens stop_pt stop_en text)) ∧
    tokenize (preprocess_text stop_pt stop_en text).data =
      filtered_tokens stop_pt stop_en text := by
  refine ⟨fun w hw => ?_, rfl, ?_⟩
  · obtain ⟨hn1, hn2, hn3⟩ := (keepToken_true_iff stop_pt stop_en w).1 (List.of_mem_filter hw)
    exact ⟨hn3, hn1, hn2⟩
  · exact tokenize_joinToks _ (filtered_tokens_wf stop_pt stop_en text)

/-- C9 counterexample: a token beginning with `http` *can* appear in the
output of `preprocess_text` — the URL regex `http\S+` needs at least one
non-space character after `http`, so a bare `http` token survives the
pipeline and is the whole output for the input `"http x"`. -/
theorem url_token_in_output_cex :
    preprocess_text [] [] "http x" = "http" ∧
      tokenize (preprocess_text [] [] "http x").data = [['h', 't', 't', 'p']] := by decide

/-- C9 (amended): no mention ever survives — the output of
`preprocess_text` never contains an `'@'` character, for any stop-word
lists and any input; and on the spec's example input the output contains
neither the substring `"http"` nor the substring `"@bob"`.  (The fully
general "no token beginning `http`/`www`" claim is false: a bare `http`
token, or one formed by punctuation removal, survives.) -/
theorem mention_free_and_url_example (stop_pt stop_en : List String) :
    (∀ text : String, '@' ∉ (preprocess_text stop_pt stop_en text).data) ∧
    containsSeq ['h', 't', 't', 'p']
      (preprocess_text stop_pt stop_en "check http://a.co/x now @bob!!").data = false ∧
    containsSeq ['@', 'b', 'o', 'b']
      (preprocess_text stop_pt stop_en "check http://a.co/x now @bob!!").data = false := by
  have htoks : tokenize (stripPunct (subMentions (subUrls
      (("check http://a.co/x now @bob!!" : String).data.map Char.toLower)))) =
      [['c', 'h', 'e', 'c', 'k'], ['n', 'o', 'w']] := by decide
  refine ⟨fun text => preprocess_no_at stop_pt stop_en text, ?_⟩
  unfold preprocess_text filtered_tokens
  rw [htoks]
  cases h1 : keepToken stop_pt stop_en ['c', 'h', 'e', 'c', 'k'] <;>
    cases h2 : keepToken stop_pt stop_en ['n', 'o', 'w'] <;>
      simp [List.filter_cons, h1, h2] <;> decide

/-- C10 counterexample: `preprocess_text` is not idempotent.  On the input
`"ht.tpx"` the punctuation-removal step manufactures the token `"httpx"`,
which the first pass keeps (its URL regex ran before punctuation removal)
but which a second pass deletes as a URL, giving a different (empty)
result. -/
theorem preprocess_not_idempotent_cex :
    preprocess_text [] [] "ht.tpx" = "httpx" ∧
      preprocess_text [] [] (preprocess_text [] [] "ht.tpx") = "" ∧
      preprocess_text [] [] (preprocess_text [] [] "ht.tpx") ≠
        preprocess_text [] [] "ht.tpx" := by decide

/-- C10 (amended): `preprocess_text` is idempotent on every input whose
output contains neither `"http"` nor `"www"` as a substring (the only way a
second pass can differ is through the URL regex; the output is already
lowercase, mention-free, punctuation-free and single-space separated). -/
theorem preprocess_idempotent_of_no_url_fragment (stop_pt stop_en : List String) (x : String)
    (h1 : containsSeq ['h', 't', 't', 'p'] (preprocess_text stop_pt stop_en x).data = false)
    (h2 : containsSeq ['w', 'w', 'w'] (preprocess_text stop_pt stop_en x).data = false) :
    preprocess_text stop_pt stop_en (preprocess_text stop_pt stop_en x) =
      preprocess_text stop_pt stop_en x := by
  have hchar : ∀ c ∈ (preprocess_text stop_pt stop_en x).data,
      (isWordChar c || isWs c) = true ∧ Char.toLower c = c :=
    preprocess_char_fact stop_pt stop_en x
  have s1 : (preprocess_text stop_pt stop_en x).data.map Char.toLower
      = (preprocess_text stop_pt stop_en x).data :=
    map_toLower_eq_self _ fun c hc => (hchar c hc).2
  have s2 : subUrls (preprocess_text stop_pt stop_en x).data
      = (preprocess_text stop_pt stop_en x).data :=
    subUrls_eq_self _ h1 h2
  have s3 : subMentions (preprocess_text stop_pt stop_en x).data
      = (preprocess_text stop_pt stop_en x).data :=
    subMentions_eq_self _ (preprocess_no_at stop_pt stop_en x)
  have s4 : stripPunct (preprocess_text stop_pt stop_en x).data
      = (preprocess_text stop_pt stop_en x).data :=
    stripPunct_eq_self fun c hc => (hchar c hc).1
  have s5 : tokenize (preprocess_text stop_pt stop_en x).data
      = filtered_tokens stop_pt stop_en x :=
    tokenize_joinToks _ (filtered_tokens_wf stop_pt stop_en x)
  have s6 : (filtered_tokens stop_pt stop_en x).filter (keepToken stop_pt stop_en)
      = filtered_tokens stop_pt stop_en x :=
    List.filter_eq_self.2 fun w hw => List.of_mem_filter hw
  show String.mk (joinToks (filtered_tokens stop_pt stop_en
    (preprocess_text stop_pt stop_en x))) = _
  unfold filtered_tokens
  rw [s1, s2, s3, s4, s5, s6]
  rfl

/-- Witness for C10 (amended): the hypotheses are satisfiable — the output
for `"Go Wild"` is `"go wild"`, which contains neither `"http"` nor
`"www"`, and a second pass leaves it unchanged. -/
theorem preprocess_idempotent_of_no_url_fragment_witness :
    containsSeq ['h', 't', 't', 'p'] (preprocess_text [] [] "Go Wild").data = false ∧
    containsSeq ['w', 'w', 'w'] (preprocess_text [] [] "Go Wild").data = false ∧
    preprocess_text [] [] (preprocess_text [] [] "Go Wild") = preprocess_text [] [] "Go Wild" :=
  ⟨by decide, by decide,
    preprocess_idempotent_of_no_url_fragment [] [] "Go Wild" (by decide) (by decide)⟩

/-- C1: if the artifact file already exists at the derived path,
`run_analysis_for_theme` returns at once — the filesystem is returned
unchanged and the event trace is empty (no credentials read, no network
call, no write); consequently, when a first call leaves the artifact in
place, it performed exactly one collection pass (one search call) and the
second call is a complete no-op, leaving the artifact byte-identical. -/
theorem materialize_cached_idempotent (env : Env) (fs : FS) (t c : String) :
    run_analysis_for_theme env (setFile fs (full_file_path t) c) t =
        ⟨setFile fs (full_file_path t) c, none, [], []⟩ ∧
    ((fs.lookup (full_file_path t)).isSome = true →
      run_analysis_for_theme env fs t = ⟨fs, none, [], []⟩) ∧
    (fs.lookup (full_file_path t) = none →
      ((run_analysis_for_theme env fs t).fs.lookup (full_file_path t)).isSome = true →
      (run_analysis_for_theme env fs t).events.count (Event.netSearch t) = 1 ∧
        run_analysis_for_theme env (run_analysis_for_theme env fs t).fs t =
          ⟨(run_analysis_for_theme env fs t).fs, none, [], []⟩) := by
  refine ⟨?_, fun h => run_cached env fs t h, fun h0 h1 => ⟨?_, run_cached env _ t h1⟩⟩
  · exact run_cached env _ t (by rw [lookup_setFile_self]; rfl)
  · cases hc : env.credentials with
    | none => rw [run_auth_none env fs t h0 hc] at h1; rw [h0] at h1; simp at h1
    | some creds =>
      by_cases hgood : creds.length < 4 ∨ env.authOk = false
      · rw [run_auth_bad env fs t creds h0 hc hgood] at h1; rw [h0] at h1; simp at h1
      · cases hf : env.fetch t with
        | err e =>
          rw [run_service_err env fs t creds e h0 hc hgood hf] at h1
          rw [h0] at h1; simp at h1
        | ok subs =>
          cases hemp : (collect_comments subs).isEmpty with
          | true =>
            rw [run_empty env fs t creds subs h0 hc hgood hf hemp] at h1
            rw [h0] at h1; simp at h1
          | false =>
            cases hper : env.persistOk with
            | true =>
              rw [run_materializes env fs t creds subs h0 hc hgood hf hemp hper]
              simp [List.count_cons]
            | false =>
              rw [run_persist_fail env fs t creds subs h0 hc hgood hf hemp hper]
              simp [List.count_cons]

/-- Witness for C1: in a fully successful environment a first call on an
empty filesystem makes exactly one search call, and the second call is a
no-op that leaves the filesystem untouched. -/
theorem materialize_cached_idempotent_witness :
    (run_analysis_for_theme envGood [] "a").events.count (Event.netSearch "a") = 1 ∧
      run_analysis_for_theme envGood (run_analysis_for_theme envGood [] "a").fs "a" =
        ⟨(run_analysis_for_theme envGood [] "a").fs, none, [], []⟩ :=
  (materialize_cached_idempotent envGood [] "a" "x").2.2 (by decide) (by decide)

/-- C2 counterexample: the persistence step is not atomic.  In a fully
successful run the first observable filesystem state of the persistence
step has the artifact file already present at the final path with empty
content, which differs from the final content — a reader at that moment
observes a partially written artifact. -/
theorem persist_midwrite_visible_cex :
    ((run_analysis_for_theme envGood [] "a").states.head?.map
        fun s => s.lookup (full_file_path "a")) = some (some "") ∧
      (run_analysis_for_theme envGood [] "a").fs.lookup (full_file_path "a") ≠ some "" := by
  decide

/-- C2 (amended): the persistence step writes directly to the final
artifact path — every write event of a run targets that path (there is no
temporary location or rename) — the write first creates/truncates the file
(an observable moment at which the artifact exists with empty content,
different from the non-empty final content), and a mid-write disk failure
escapes the call and leaves that partial file visible at the final path. -/
theorem persist_direct_write_observable (env : Env) (fs : FS) (t : String)
    (creds : List String) (subs : List Submission)
    (h0 : fs.lookup (full_file_path t) = none) (hc : env.credentials = some creds)
    (hgood : ¬(creds.length < 4 ∨ env.authOk = false))
    (hf : env.fetch t = FetchResult.ok subs)
    (hne : (collect_comments subs).isEmpty = false) :
    (run_analysis_for_theme env fs t).states.head? =
        some (setFile fs (full_file_path t) "") ∧
    (setFile fs (full_file_path t) "").lookup (full_file_path t) = some "" ∧
    csvContent (analysis_rows env subs) ≠ "" ∧
    (∀ p, Event.fileWrite p ∈ (run_analysis_for_theme env fs t).events →
      p = full_file_path t) ∧
    (env.persistOk = true →
      run_analysis_for_theme env fs t =
        ⟨setFile (setFile fs (full_file_path t) "") (full_file_path t)
            (csvContent (analysis_rows env subs)), none,
          [Event.readCreds, Event.netSearch t, Event.fileWrite (full_file_path t)],
          [setFile fs (full_file_path t) "",
            setFile (setFile fs (full_file_path t) "") (full_file_path t)
              (csvContent (analysis_rows env subs))]⟩) ∧
    (env.persistOk = false →
      run_analysis_for_theme env fs t =
        ⟨setFile fs (full_file_path t) "", some "PersistenceError",
          [Event.readCreds, Event.netSearch t, Event.fileWrite (full_file_path t)],
          [setFile fs (full_file_path t) ""]⟩) := by
  have hcontent : csvContent (analysis_rows env subs) ≠ "" := by
    intro habs
    have := congrArg String.length habs
    simp [csvContent, headerRow, String.length] at this
  refine ⟨?_, lookup_setFile_self fs _ "", hcontent, ?_,
    fun hper => run_materializes env fs t creds subs h0 hc hgood hf hne hper,
    fun hper => run_persist_fail env fs t creds subs h0 hc hgood hf hne hper⟩
  · cases hper : env.persistOk with
    | true => rw [run_materializes env fs t creds subs h0 hc hgood hf hne hper]; rfl
    | false => rw [run_persist_fail env fs t creds subs h0 hc hgood hf hne hper]; rfl
  · intro p hp
    cases hper : env.persistOk with
    | true =>
      rw [run_materializes env fs t creds subs h0 hc hgood hf hne hper] at hp
      simp at hp
      exact hp
    | false =>
      rw [run_persist_fail env fs t creds subs h0 hc hgood hf hne hper] at hp
      simp at hp
      exact hp

/-- Witness for C2 (amended): in the disk-failure environment the first
observable persistence state is the truncated artifact at the final path. -/
theorem persist_direct_write_observable_witness :
    (run_analysis_for_theme envNoDisk [] "a").states.head? =
      some (setFile [] (full_file_path "a") "") :=
  (persist_direct_write_observable envNoDisk [] "a" goodCreds [sub0]
    (by decide) rfl (by decide) rfl (by decide)).1

/-- C3 counterexample: a service error while collecting topic `"t1"`
escapes `run_analysis_for_theme` and aborts the batch — topic `"t2"` is
never processed (its artifact is absent from the final filesystem), even
though processing `"t2"` alone would have produced its artifact. -/
theorem batch_abort_on_service_error_cex :
    (main_loop envSvc [] ["t1", "t2"]).2 = some "ServiceError" ∧
      (main_loop envSvc [] ["t1", "t2"]).1.lookup (full_file_path "t2") = none ∧
      ((main_loop envSvc [] ["t2"]).1.lookup (full_file_path "t2")).isSome = true := by
  decide

/-- C3 (amended): credential/configuration failures, authentication
failures, already-cached topics and empty results are contained per-topic —
if no topic's collection raises a service error and the disk accepts
writes, the batch loop finishes every topic and no exception escapes;
a collection-time service error or a persistence error, however, escapes
and aborts the remaining topics (see the counterexample). -/
theorem batch_survives_contained_failures (env : Env) (fs : FS) (ts : List String)
    (hper : env.persistOk = true)
    (hfetch : ∀ t ∈ ts, (env.fetch t).isOk = true) :
    (main_loop env fs ts).2 = none := by
  induction ts generalizing fs with
  | nil => rfl
  | cons t ts' ih =>
    have he := run_exn_none env fs t hper (hfetch t (List.mem_cons_self t ts'))
    simp only [main_loop, he]
    exact ih _ fun u hu => hfetch u (List.mem_cons_of_mem t hu)

/-- Witness for C3 (amended): with a missing credentials file every topic
fails to authenticate, yet the batch completes with no escaping
exception. -/
theorem batch_survives_contained_failures_witness :
    (main_loop envNoCreds [] ["t1", "t2"]).2 = none :=
  batch_survives_contained_failures envNoCreds [] ["t1", "t2"] rfl (by decide)

/-- C5: the artifact a materializing run writes at the derived path is the
`;`-separated table `csvContent`: a header row naming exactly the seven
columns `post_id;date;text;cleaned_text;sentiment_score;sentiment;comment_score`
in that order, then one `;`-joined row of those seven fields per analyzed
comment; every persisted date has zero time-of-day, so its `date` field
serializes as the bare calendar day. -/
theorem artifact_schema_and_dates (env : Env) (fs : FS) (t : String)
    (creds : List String) (subs : List Submission)
    (h0 : fs.lookup (full_file_path t) = none) (hc : env.credentials = some creds)
    (hgood : ¬(creds.length < 4 ∨ env.authOk = false))
    (hf : env.fetch t = FetchResult.ok subs)
    (hne : (collect_comments subs).isEmpty = false) (hper : env.persistOk = true) :
    (run_analysis_for_theme env fs t).fs.lookup (full_file_path t) =
        some (csvContent (analysis_rows env subs)) ∧
    csvContent (analysis_rows env subs) = headerRow ++ "\n" ++
        String.join ((analysis_rows env subs).map fun r => renderRow r ++ "\n") ∧
    headerRow = "post_id;date;text;cleaned_text;sentiment_score;sentiment;comment_score" ∧
    (∀ r ∈ analysis_rows env subs, r.date.secOfDay = 0 ∧
      renderRow r = String.intercalate ";"
        [csvField r.post_id, csvField (dayPart r.date), csvField r.text,
          csvField r.cleaned_text, ratStr r.sentiment_score, r.sentiment,
          toString r.comment_score]) := by
  refine ⟨?_, rfl, rfl, ?_⟩
  · rw [run_materializes env fs t creds subs h0 hc hgood hf hne hper]
    exact lookup_setFile_self _ _ _
  · intro r hr
    obtain ⟨cr, -, rfl⟩ := List.mem_map.1 hr
    refine ⟨rfl, ?_⟩
    simp [renderRow, dateStr, analyze_comment, normalizeDate]

/-- Witness for C5: the artifact written in the all-good environment is the
rendered table of the analyzed rows. -/
theorem artifact_schema_and_dates_witness :
    (run_analysis_for_theme envGood [] "a").fs.lookup (full_file_path "a") =
      some (csvContent (analysis_rows envGood [sub0])) :=
  (artifact_schema_and_dates envGood [] "a" goodCreds [sub0]
    (by decide) rfl (by decide) rfl (by decide) rfl).1

/-- C6: if the collector returns zero comments for a topic, the run ends
with a warning skip — the filesystem is returned unchanged (no file
created, nothing overwritten), no write event occurs, and no exception
escapes the call. -/
theorem empty_result_skip (env : Env) (fs : FS) (t : String)
    (creds : List String) (subs : List Submission)
    (h0 : fs.lookup (full_file_path t) = none) (hc : env.credentials = some creds)
    (hgood : ¬(creds.length < 4 ∨ env.authOk = false))
    (hf : env.fetch t = FetchResult.ok subs)
    (hemp : (collect_comments subs).isEmpty = true) :
    run_analysis_for_theme env fs t =
      ⟨fs, none, [Event.readCreds, Event.netSearch t], []⟩ :=
  run_empty env fs t creds subs h0 hc hgood hf hemp

/-- Witness for C6: a search that finds one comment-less submission makes
the run a no-op on the filesystem with no escaping exception. -/
theorem empty_result_skip_witness :
    run_analysis_for_theme envEmpty [] "a" =
      ⟨[], none, [Event.readCreds, Event.netSearch "a"], []⟩ :=
  empty_result_skip envEmpty [] "a" goodCreds [subEmpty]
    (by decide) rfl (by decide) rfl (by decide)

end TrendingGaming
